import Mathlib

/-
Formal model of the sleep-data-harmonizer ingestion core.

Shallow embedding of the repository code:
- src/sleep/domain/validation.py  (validate_sleep_record, nine rules)
- src/sleep/domain/models.py      (SleepDay.compute_fingerprint)
- src/sleep/repository.py         (upsert, get_timeline, atomic_claim_idempotency_key)
- src/sleep/pipeline.py           (ingest_sleep_data per-candidate loop)
- src/sleep/adapters/oura_mapper.py and withings_mapper.py (unit conversion,
  alias resolution)

Conventions: Python ints are modelled as Int or Nat, Python floats occurring in
validation and efficiency fields as Rat (the concrete values the code handles
are decimal and small, where float and rational arithmetic agree), datetimes as
an instant (Int seconds) plus an awareness flag, dates as a year/month/day
structure, uuids as Nat, JSON blobs that no claim inspects as opaque String
values.  The relational store is a list of rows; uniqueness constraints are
modelled inside the upsert operation exactly as Postgres arbitration behaves
for INSERT ... ON CONFLICT (fingerprint) DO UPDATE with a secondary unique
constraint on (source, source_record_id).
-/

/-- Enumeration of sleep sources, mirroring SleepSource in models.py. -/
inductive Source
  | oura
  | withings
deriving DecidableEq, Repr

/-- String value of a source, mirroring the StrEnum values. -/
def Source.value : Source → String
  | .oura => "oura"
  | .withings => "withings"

/-- Character list of the source value, used to build the fingerprint preimage. -/
def Source.chars : Source → List Char
  | .oura => ['o', 'u', 'r', 'a']
  | .withings => ['w', 'i', 't', 'h', 'i', 'n', 'g', 's']

theorem Source.chars_eq_value_data (s : Source) : s.value.data = s.chars := by
  cases s <;> decide

/-- Model of a Python datetime.date value. -/
structure Pydate where
  year : Nat
  month : Nat
  day : Nat
deriving DecidableEq, Repr

/-- Calendar-valid date in the range Python date objects permit. -/
def Pydate.valid (d : Pydate) : Prop :=
  1 ≤ d.year ∧ d.year ≤ 9999 ∧ 1 ≤ d.month ∧ d.month ≤ 12 ∧ 1 ≤ d.day ∧ d.day ≤ 31

instance (d : Pydate) : Decidable d.valid := by
  unfold Pydate.valid; exact inferInstance

/-- Strict calendar order on dates (lexicographic on year, month, day),
matching how Python date comparison behaves. -/
def Pydate.lt (a b : Pydate) : Prop :=
  a.year < b.year ∨ (a.year = b.year ∧ (a.month < b.month ∨ (a.month = b.month ∧ a.day < b.day)))

instance (a b : Pydate) : Decidable (Pydate.lt a b) := by
  unfold Pydate.lt; exact inferInstance

/-- Model of a Python datetime value: the instant in UTC seconds plus whether
the value carries timezone information (tzinfo is not None). -/
structure Dt where
  instant : Int
  aware : Bool
deriving DecidableEq, Repr

/-- Validation error, mirroring the ValidationError dataclass of validation.py
(the heterogeneous value payload is omitted; no claim inspects it). -/
structure ValidationError where
  field : String
  rule : String
  reason : String
deriving DecidableEq, Repr

/-- Allowed sources in validation.py. -/
def ALLOWED_SOURCES : List String := ["oura", "withings"]

/-- View of a record dict as consumed by validate_sleep_record.  Numeric
fields are rationals (covering the int and float values the code accepts). -/
structure ValRecord where
  effective_date : Option Pydate
  total_sleep_minutes : Option ℚ
  deep_sleep_minutes : Option ℚ
  light_sleep_minutes : Option ℚ
  rem_sleep_minutes : Option ℚ
  awake_minutes : Option ℚ
  sleep_efficiency : Option ℚ
  sleep_onset : Option Dt
  sleep_offset : Option Dt
  source : Option String
deriving DecidableEq, Repr

/-- Rule 1 of validation.py: required effective_date. -/
def rule_required (r : ValRecord) : List ValidationError :=
  match r.effective_date with
  | none => [⟨"effective_date", "required", "missing_effective_date"⟩]
  | some _ => []

/-- Rule 2 of validation.py: total sleep duration within [0, 1440]. -/
def rule_duration_range (r : ValRecord) : List ValidationError :=
  match r.total_sleep_minutes with
  | some t =>
      if t < 0 ∨ 1440 < t then [⟨"total_sleep_minutes", "range", "sleep_duration_out_of_range"⟩]
      else []
  | none => []

/-- Rule 3 of validation.py, one stage field: non-negative when present. -/
def rule_nonneg_stage (fieldName : String) (v : Option ℚ) : List ValidationError :=
  match v with
  | some x => if x < 0 then [⟨fieldName, "non_negative", "negative_sleep_stage"⟩] else []
  | none => []

/-- Sum of present stage fields, absent fields contributing 0, matching
record.get(f, 0) or 0 over the four stage fields. -/
def stageSum (r : ValRecord) : ℚ :=
  r.deep_sleep_minutes.getD 0 + r.light_sleep_minutes.getD 0 +
    r.rem_sleep_minutes.getD 0 + r.awake_minutes.getD 0

/-- Rule 4 of validation.py: stage sum must not exceed total times 1.05,
checked only when the total is present. -/
def rule_stage_sum (r : ValRecord) : List ValidationError :=
  match r.total_sleep_minutes with
  | some t =>
      if t * (21 / 20) < stageSum r then [⟨"stage_sum", "consistency", "stage_sum_exceeds_total"⟩]
      else []
  | none => []

/-- Rule 5 of validation.py: effective date must not be in the future. -/
def rule_no_future (today : Pydate) (r : ValRecord) : List ValidationError :=
  match r.effective_date with
  | some d => if Pydate.lt today d then [⟨"effective_date", "no_future", "future_date"⟩] else []
  | none => []

/-- Rule 6 of validation.py: efficiency within [0.0, 1.0]. -/
def rule_efficiency_range (r : ValRecord) : List ValidationError :=
  match r.sleep_efficiency with
  | some e =>
      if e < 0 ∨ 1 < e then [⟨"sleep_efficiency", "range", "efficiency_out_of_range"⟩] else []
  | none => []

/-- Rule 7 of validation.py, one timestamp field: timezone must be present. -/
def rule_timezone (fieldName : String) (v : Option Dt) : List ValidationError :=
  match v with
  | some ts => if ts.aware = false then [⟨fieldName, "timezone", "missing_timezone"⟩] else []
  | none => []

/-- Rule 8 of validation.py: source, when present and truthy, must be known. -/
def rule_known_source (r : ValRecord) : List ValidationError :=
  match r.source with
  | some s =>
      if s ≠ "" ∧ s ∉ ALLOWED_SOURCES then [⟨"source", "known_source", "unknown_source"⟩] else []
  | none => []

/-- Rule 9 of validation.py: onset strictly before offset, compared only when
both timestamps are present and timezone-aware. -/
def rule_ordering (r : ValRecord) : List ValidationError :=
  match r.sleep_onset, r.sleep_offset with
  | some o, some f =>
      if o.aware = true ∧ f.aware = true ∧ f.instant ≤ o.instant then
        [⟨"sleep_onset", "ordering", "bedtime_order_invalid"⟩]
      else []
  | _, _ => []

/-- Model of validate_sleep_record: all nine rules evaluated in source order,
violations concatenated.  The validation time parameter today models
date.today() read at the start of the function. -/
def validate_sleep_record (today : Pydate) (r : ValRecord) : List ValidationError :=
  rule_required r ++ rule_duration_range r ++
    rule_nonneg_stage "deep_sleep_minutes" r.deep_sleep_minutes ++
    rule_nonneg_stage "light_sleep_minutes" r.light_sleep_minutes ++
    rule_nonneg_stage "rem_sleep_minutes" r.rem_sleep_minutes ++
    rule_nonneg_stage "awake_minutes" r.awake_minutes ++
    rule_stage_sum r ++ rule_no_future today r ++ rule_efficiency_range r ++
    rule_timezone "sleep_onset" r.sleep_onset ++ rule_timezone "sleep_offset" r.sleep_offset ++
    rule_known_source r ++ rule_ordering r

theorem mem_rule_required (r : ValRecord) (e : ValidationError)
    (h : e ∈ rule_required r) : e.reason = "missing_effective_date" := by
  unfold rule_required at h
  split at h <;> simp_all

theorem mem_rule_duration_range (r : ValRecord) (e : ValidationError)
    (h : e ∈ rule_duration_range r) : e.reason = "sleep_duration_out_of_range" := by
  unfold rule_duration_range at h
  split at h <;> first | (split at h <;> simp_all) | simp_all

theorem mem_rule_nonneg_stage (f : String) (v : Option ℚ) (e : ValidationError)
    (h : e ∈ rule_nonneg_stage f v) : e.reason = "negative_sleep_stage" := by
  unfold rule_nonneg_stage at h
  split at h <;> first | (split at h <;> simp_all) | simp_all

theorem mem_rule_stage_sum (r : ValRecord) (e : ValidationError)
    (h : e ∈ rule_stage_sum r) :
    e.reason = "stage_sum_exceeds_total" ∧
      ∃ t, r.total_sleep_minutes = some t ∧ t * (21 / 20) < stageSum r := by
  unfold rule_stage_sum at h
  split at h
  next t heq => split at h <;> simp_all
  next => simp_all

theorem mem_rule_no_future (today : Pydate) (r : ValRecord) (e : ValidationError)
    (h : e ∈ rule_no_future today r) : e.reason = "future_date" := by
  unfold rule_no_future at h
  split at h <;> first | (split at h <;> simp_all) | simp_all

theorem mem_rule_efficiency_range (r : ValRecord) (e : ValidationError)
    (h : e ∈ rule_efficiency_range r) : e.reason = "efficiency_out_of_range" := by
  unfold rule_efficiency_range at h
  split at h <;> first | (split at h <;> simp_all) | simp_all

theorem mem_rule_timezone (f : String) (v : Option Dt) (e : ValidationError)
    (h : e ∈ rule_timezone f v) : e.reason = "missing_timezone" := by
  unfold rule_timezone at h
  split at h <;> first | (split at h <;> simp_all) | simp_all

theorem mem_rule_known_source (r : ValRecord) (e : ValidationError)
    (h : e ∈ rule_known_source r) : e.reason = "unknown_source" := by
  unfold rule_known_source at h
  split at h <;> first | (split at h <;> simp_all) | simp_all

theorem mem_rule_ordering (r : ValRecord) (e : ValidationError)
    (h : e ∈ rule_ordering r) : e.reason = "bedtime_order_invalid" := by
  unfold rule_ordering at h
  split at h <;> first | (split at h <;> simp_all) | simp_all

/-- Characterization of when a stage-sum violation is reported: exactly when
the total is present and the stage sum strictly exceeds total times 21/20. -/
theorem stage_sum_violation_iff (today : Pydate) (r : ValRecord) :
    (∃ e ∈ validate_sleep_record today r, e.reason = "stage_sum_exceeds_total") ↔
      ∃ t, r.total_sleep_minutes = some t ∧ t * (21 / 20) < stageSum r := by
  constructor
  · rintro ⟨e, he, hr⟩
    unfold validate_sleep_record at he
    simp only [List.mem_append] at he
    rcases he with (((((((((((h | h) | h) | h) | h) | h) | h) | h) | h) | h) | h) | h) | h
    · exact absurd (mem_rule_required r e h ▸ hr) (by decide)
    · exact absurd (mem_rule_duration_range r e h ▸ hr) (by decide)
    · exact absurd (mem_rule_nonneg_stage _ _ e h ▸ hr) (by decide)
    · exact absurd (mem_rule_nonneg_stage _ _ e h ▸ hr) (by decide)
    · exact absurd (mem_rule_nonneg_stage _ _ e h ▸ hr) (by decide)
    · exact absurd (mem_rule_nonneg_stage _ _ e h ▸ hr) (by decide)
    · exact (mem_rule_stage_sum r e h).2
    · exact absurd (mem_rule_no_future today r e h ▸ hr) (by decide)
    · exact absurd (mem_rule_efficiency_range r e h ▸ hr) (by decide)
    · exact absurd (mem_rule_timezone _ _ e h ▸ hr) (by decide)
    · exact absurd (mem_rule_timezone _ _ e h ▸ hr) (by decide)
    · exact absurd (mem_rule_known_source r e h ▸ hr) (by decide)
    · exact absurd (mem_rule_ordering r e h ▸ hr) (by decide)
  · rintro ⟨t, ht, hlt⟩
    refine ⟨⟨"stage_sum", "consistency", "stage_sum_exceeds_total"⟩, ?_, rfl⟩
    unfold validate_sleep_record
    simp only [List.mem_append]
    refine Or.inl (Or.inl (Or.inl (Or.inl (Or.inl (Or.inl (Or.inr ?_))))))
    unfold rule_stage_sum
    rw [ht]
    simp only [if_pos hlt, List.mem_singleton]

/-- Validation-time value used in concrete validation scenarios. -/
def today0 : Pydate := ⟨2026, 10, 12⟩

/-- Record with total_sleep_minutes 0 and stage sum 0, which is exactly 105.1
percent of the total. -/
def zeroTotalRec : ValRecord :=
  ⟨some ⟨2024, 1, 1⟩, some 0, some 0, some 0, some 0, some 0, none, none, none, some "oura"⟩

/-- C5 counterexample: with total_sleep_minutes = 0 the stage sum equals 105.1
percent of the total, yet validate_sleep_record reports no
stage_sum_exceeds_total violation, so the boundary claim fails as stated. -/
theorem rule4_boundary_cex :
    zeroTotalRec.total_sleep_minutes = some 0 ∧
      stageSum zeroTotalRec = 0 * (1051 / 1000) ∧
      ¬ ∃ e ∈ validate_sleep_record today0 zeroTotalRec, e.reason = "stage_sum_exceeds_total" := by
  refine ⟨rfl, by norm_num [stageSum, zeroTotalRec], ?_⟩
  rw [stage_sum_violation_iff]
  rintro ⟨t, ht, hlt⟩
  simp only [zeroTotalRec, Option.some.injEq] at ht
  rw [← ht] at hlt
  norm_num [stageSum, zeroTotalRec] at hlt

/-- C5 amended: validation rule 4 holds at its stated boundary for every record
whose total_sleep_minutes is present and positive (at total 0 or below, a stage
sum at 105.1 percent of the total does not exceed total times 1.05, so the
claim fails there), and the rule is not evaluated when the total is absent. -/
theorem rule4_boundary (today : Pydate) (r : ValRecord) (t : ℚ)
    (ht : r.total_sleep_minutes = some t) (hpos : 0 < t) :
    (stageSum r = t →
      ¬ ∃ e ∈ validate_sleep_record today r, e.reason = "stage_sum_exceeds_total") ∧
    (stageSum r = t * (21 / 20) →
      ¬ ∃ e ∈ validate_sleep_record today r, e.reason = "stage_sum_exceeds_total") ∧
    (stageSum r = t * (1051 / 1000) →
      ∃ e ∈ validate_sleep_record today r, e.reason = "stage_sum_exceeds_total") ∧
    ∀ r2 : ValRecord, r2.total_sleep_minutes = none →
      ¬ ∃ e ∈ validate_sleep_record today r2, e.reason = "stage_sum_exceeds_total" := by
  refine ⟨?_, ?_, ?_, ?_⟩
  · intro hs hmem
    rw [stage_sum_violation_iff] at hmem
    obtain ⟨t2, ht2, hlt⟩ := hmem
    rw [ht] at ht2
    injection ht2 with h2
    rw [← h2, hs] at hlt
    linarith
  · intro hs hmem
    rw [stage_sum_violation_iff] at hmem
    obtain ⟨t2, ht2, hlt⟩ := hmem
    rw [ht] at ht2
    injection ht2 with h2
    rw [← h2, hs] at hlt
    linarith
  · intro hs
    rw [stage_sum_violation_iff]
    refine ⟨t, ht, ?_⟩
    rw [hs]
    nlinarith
  · intro r2 hnone hmem
    rw [stage_sum_violation_iff] at hmem
    obtain ⟨t2, ht2, _⟩ := hmem
    rw [hnone] at ht2
    exact Option.noConfusion ht2

/-- Record with a positive total used to witness the amended rule 4 boundary. -/
def posTotalRec : ValRecord :=
  ⟨some ⟨2024, 1, 1⟩, some 20, some 20, some 0, some 0, some 0, none, none, none, some "oura"⟩

/-- Witness for the amended rule 4 boundary theorem at total 20. -/
theorem rule4_boundary_w :
    (0 : ℚ) < 20 ∧
      ((stageSum posTotalRec = 20 →
        ¬ ∃ e ∈ validate_sleep_record today0 posTotalRec,
          e.reason = "stage_sum_exceeds_total") ∧
      (stageSum posTotalRec = 20 * (21 / 20) →
        ¬ ∃ e ∈ validate_sleep_record today0 posTotalRec,
          e.reason = "stage_sum_exceeds_total") ∧
      (stageSum posTotalRec = 20 * (1051 / 1000) →
        ∃ e ∈ validate_sleep_record today0 posTotalRec,
          e.reason = "stage_sum_exceeds_total") ∧
      ∀ r2 : ValRecord, r2.total_sleep_minutes = none →
        ¬ ∃ e ∈ validate_sleep_record today0 r2, e.reason = "stage_sum_exceeds_total") :=
  ⟨by norm_num, rule4_boundary today0 posTotalRec 20 rfl (by norm_num)⟩

/-- Row of the idempotency_keys table for a fixed key, mirroring
IdempotencyKeyModel in orm.py (key string is implicit since every statement in
atomic_claim_idempotency_key filters on one key). -/
structure KeyRow where
  source : String
  request_hash : String
  status_code : Option Nat
  response_body : Option String
  locked_at : Option Int
  created_at : Int
  expires_at : Int
deriving DecidableEq, Repr

/-- Expiry interval, mirroring the server default now() plus 24 hours. -/
def IDEMPOTENCY_TTL : Int := 24 * 3600

/-- Result of the claim operation, mirroring the status dict returned by
atomic_claim_idempotency_key. -/
inductive ClaimOutcome
  | claimed
  | completed (status_code : Nat) (response_body : Option String)
  | in_flight
  | conflict
deriving DecidableEq, Repr

/-- Model of SleepDayRepository.atomic_claim_idempotency_key for one key, run
sequentially: first the DELETE of the expired row (expires_at at or before
now), then INSERT ... ON CONFLICT DO NOTHING with locked_at = now and the
server-default expiry, then on conflict the re-read of the live row and the
branch on request_hash and status_code.  The concurrent-vanish retry branch of
the source is unreachable in a sequential execution. -/
def atomic_claim_idempotency_key (now : Int) (row : Option KeyRow)
    (source request_hash : String) : Option KeyRow × ClaimOutcome :=
  let live : Option KeyRow :=
    match row with
    | some r => if r.expires_at ≤ now then none else some r
    | none => none
  match live with
  | none =>
      (some { source := source, request_hash := request_hash, status_code := none,
              response_body := none, locked_at := some now, created_at := now,
              expires_at := now + IDEMPOTENCY_TTL }, .claimed)
  | some r =>
      if r.request_hash ≠ request_hash then (some r, .conflict)
      else
        match r.status_code with
        | some sc => (some r, .completed sc r.response_body)
        | none => (some r, .in_flight)

/-- Model of SleepDayRepository.complete_idempotency_key: set the terminal
status and body, clear the lock marker. -/
def complete_idempotency_key (row : Option KeyRow) (status_code : Nat)
    (response_body : String) : Option KeyRow :=
  row.map fun r =>
    { r with status_code := some status_code, response_body := some response_body,
             locked_at := none }

/-- C2: the claim outcome is a function of the prior state of the key: absent
or expired rows yield claimed (expired rows are purged first), a live row with
a different request hash yields conflict, a live row with the same hash yields
completed with the stored status and body when a terminal status exists and
in_flight otherwise; and two sequential claims with the same key but different
request hashes inside the TTL window yield claimed then conflict. -/
theorem atomic_claim_cases (now : Int) (source request_hash : String) :
    (atomic_claim_idempotency_key now none source request_hash).2 = .claimed ∧
    (∀ r : KeyRow, r.expires_at ≤ now →
      (atomic_claim_idempotency_key now (some r) source request_hash).2 = .claimed) ∧
    (∀ r : KeyRow, now < r.expires_at → r.request_hash ≠ request_hash →
      (atomic_claim_idempotency_key now (some r) source request_hash).2 = .conflict) ∧
    (∀ r : KeyRow, ∀ sc : Nat, now < r.expires_at → r.request_hash = request_hash →
      r.status_code = some sc →
      (atomic_claim_idempotency_key now (some r) source request_hash).2 =
        .completed sc r.response_body) ∧
    (∀ r : KeyRow, now < r.expires_at → r.request_hash = request_hash →
      r.status_code = none →
      (atomic_claim_idempotency_key now (some r) source request_hash).2 = .in_flight) ∧
    (∀ now2 : Int, ∀ hash2 : String, request_hash ≠ hash2 → now2 < now + IDEMPOTENCY_TTL →
      (atomic_claim_idempotency_key now none source request_hash).2 = .claimed ∧
      (atomic_claim_idempotency_key now2
          (atomic_claim_idempotency_key now none source request_hash).1
          source hash2).2 = .conflict) := by
  refine ⟨rfl, ?_, ?_, ?_, ?_, ?_⟩
  · intro r hexp
    simp [atomic_claim_idempotency_key, if_pos hexp]
  · intro r hlive hne
    rw [atomic_claim_idempotency_key]
    simp only [if_neg (not_le.mpr hlive), if_pos hne]
  · intro r sc hlive heq hsc
    rw [atomic_claim_idempotency_key]
    simp only [if_neg (not_le.mpr hlive), heq, ne_eq, not_true_eq_false, if_false, hsc]
  · intro r hlive heq hsc
    rw [atomic_claim_idempotency_key]
    simp only [if_neg (not_le.mpr hlive), heq, ne_eq, not_true_eq_false, if_false, hsc]
  · intro now2 hash2 hne hwin
    refine ⟨rfl, ?_⟩
    rw [atomic_claim_idempotency_key]
    simp only [atomic_claim_idempotency_key]
    rw [if_neg (not_le.mpr hwin)]
    simp [hne]

/-- Concrete live key row used to witness the claim case analysis. -/
def liveKeyRow : KeyRow :=
  ⟨"oura", "h1", none, none, some 0, 0, 86400⟩

/-- Witness for the claim-operation case analysis at concrete inputs. -/
theorem atomic_claim_cases_w :
    ((0 : Int) < liveKeyRow.expires_at ∧ liveKeyRow.request_hash ≠ "h2" ∧
      (5 : Int) < 0 + IDEMPOTENCY_TTL) ∧
    (atomic_claim_idempotency_key 0 (some liveKeyRow) "oura" "h2").2 = .conflict ∧
    (atomic_claim_idempotency_key 5
        (atomic_claim_idempotency_key 0 none "oura" "h1").1 "oura" "h2").2 = .conflict := by
  refine ⟨⟨by norm_num [liveKeyRow], by decide, by norm_num [IDEMPOTENCY_TTL]⟩, ?_, ?_⟩
  · exact (atomic_claim_cases 0 "oura" "h2").2.2.1 _ (by norm_num [liveKeyRow]) (by decide)
  · exact ((atomic_claim_cases 0 "oura" "h1").2.2.2.2.2 5 "h2" (by decide)
      (by norm_num [IDEMPOTENCY_TTL])).2

/-- Row of the sleep_days table, mirroring SleepDayModel in orm.py.  JSON
payloads are opaque strings; uuids are Nat. -/
structure Row where
  id : Nat
  patient_id : Nat
  source : String
  source_record_id : String
  fingerprint : String
  effective_date : Pydate
  ingested_at : Int
  updated_at : Int
  total_sleep_minutes : Option Int
  deep_sleep_minutes : Option Int
  light_sleep_minutes : Option Int
  rem_sleep_minutes : Option Int
  awake_minutes : Option Int
  sleep_onset : Option Dt
  sleep_offset : Option Dt
  sleep_efficiency : Option ℚ
  extra : String
  raw_payload : String
deriving DecidableEq, Repr

/-- Parsed SleepDay candidate as produced by an adapter and consumed by the
pipeline loop, mirroring the SleepDay pydantic model of models.py. -/
structure Candidate where
  id : Nat
  patient_id : Nat
  source : Source
  source_record_id : String
  fingerprint : String
  effective_date : Pydate
  ingested_at : Int
  updated_at : Int
  total_sleep_minutes : Option Int
  deep_sleep_minutes : Option Int
  light_sleep_minutes : Option Int
  rem_sleep_minutes : Option Int
  awake_minutes : Option Int
  sleep_onset : Option Dt
  sleep_offset : Option Dt
  sleep_efficiency : Option ℚ
  extra : String
  raw_payload : String
deriving DecidableEq, Repr

/-- View of sleep_day.model_dump() as passed to validate_sleep_record. -/
def toValRecord (c : Candidate) : ValRecord :=
  { effective_date := some c.effective_date,
    total_sleep_minutes := c.total_sleep_minutes.map fun v : Int => (v : ℚ),
    deep_sleep_minutes := c.deep_sleep_minutes.map fun v : Int => (v : ℚ),
    light_sleep_minutes := c.light_sleep_minutes.map fun v : Int => (v : ℚ),
    rem_sleep_minutes := c.rem_sleep_minutes.map fun v : Int => (v : ℚ),
    awake_minutes := c.awake_minutes.map fun v : Int => (v : ℚ),
    sleep_efficiency := c.sleep_efficiency,
    sleep_onset := c.sleep_onset,
    sleep_offset := c.sleep_offset,
    source := some c.source.value }

/-- The upsert_dict built by the pipeline from a candidate (pipeline.py lines
169 to 188), with source rendered through its string value. -/
def rowOf (c : Candidate) : Row :=
  { id := c.id, patient_id := c.patient_id, source := c.source.value,
    source_record_id := c.source_record_id, fingerprint := c.fingerprint,
    effective_date := c.effective_date, ingested_at := c.ingested_at,
    updated_at := c.updated_at, total_sleep_minutes := c.total_sleep_minutes,
    deep_sleep_minutes := c.deep_sleep_minutes,
    light_sleep_minutes := c.light_sleep_minutes,
    rem_sleep_minutes := c.rem_sleep_minutes, awake_minutes := c.awake_minutes,
    sleep_onset := c.sleep_onset, sleep_offset := c.sleep_offset,
    sleep_efficiency := c.sleep_efficiency, extra := c.extra,
    raw_payload := c.raw_payload }

/-- Fingerprint column of every row of the store, in order. -/
def fps (db : List Row) : List String := db.map fun r => r.fingerprint

/-- First row whose fingerprint equals f, modelling the ON CONFLICT arbiter
lookup on the unique fingerprint index. -/
def findRow (f : String) : List Row → Option Row
  | [] => none
  | r :: rs => if r.fingerprint = f then some r else findRow f rs

/-- Existence of a row matching the secondary (source, source_record_id)
unique constraint. -/
def hasSrid (db : List Row) (s rid : String) : Prop :=
  ∃ r ∈ db, r.source = s ∧ r.source_record_id = rid

instance (db : List Row) (s rid : String) : Decidable (hasSrid db s rid) :=
  List.decidableBEx _ db

/-- Overwrite of the mutable columns listed in the ON CONFLICT DO UPDATE SET
clause of SleepDayRepository.upsert, with updated_at refreshed to now. -/
def applyMutable (now : Int) (q rec : Row) : Row :=
  { q with total_sleep_minutes := rec.total_sleep_minutes,
           deep_sleep_minutes := rec.deep_sleep_minutes,
           light_sleep_minutes := rec.light_sleep_minutes,
           rem_sleep_minutes := rec.rem_sleep_minutes,
           awake_minutes := rec.awake_minutes,
           sleep_efficiency := rec.sleep_efficiency,
           sleep_onset := rec.sleep_onset,
           sleep_offset := rec.sleep_offset,
           extra := rec.extra,
           raw_payload := rec.raw_payload,
           updated_at := now }

/-- Store rows after the conflict update against rec has run. -/
def updateByFingerprint (now : Int) (db : List Row) (rec : Row) : List Row :=
  db.map fun q => if q.fingerprint = rec.fingerprint then applyMutable now q rec else q

/-- Outcome of one INSERT ... ON CONFLICT DO UPDATE attempt: the new store,
the returned row id and the (xmax = 0) was_inserted flag, or an IntegrityError
raised by the secondary (source, source_record_id) unique constraint. -/
inductive UpsertOut
  | ok (db : List Row) (id : Nat) (was_inserted : Bool)
  | integrityError
deriving DecidableEq, Repr

/-- Model of SleepDayRepository.upsert: the fingerprint arbiter index decides
between the update path (returning the existing row id and was_inserted false)
and the insert path; an insert that violates the secondary unique constraint
on (source, source_record_id) raises IntegrityError. -/
def upsert (now : Int) (db : List Row) (rec : Row) : UpsertOut :=
  match findRow rec.fingerprint db with
  | some row => .ok (updateByFingerprint now db rec) row.id false
  | none =>
      if hasSrid db rec.source rec.source_record_id then .integrityError
      else .ok (db ++ [rec]) rec.id true

/-- Per-candidate outcome recorded by the pipeline loop. -/
inductive Outcome
  | created (id : Nat)
  | deduplicated (id : Nat)
  | quarantined (stage : String) (reason : String) (fingerprint : Option String)
deriving DecidableEq, Repr

def Outcome.isCreated : Outcome → Prop
  | .created _ => True
  | _ => False

def Outcome.isDedup : Outcome → Prop
  | .deduplicated _ => True
  | _ => False

def Outcome.isQuarantined : Outcome → Prop
  | .quarantined _ _ _ => True
  | _ => False

instance : ∀ o : Outcome, Decidable o.isCreated := by
  intro o; cases o <;> simp [Outcome.isCreated] <;> exact inferInstance

instance : ∀ o : Outcome, Decidable o.isDedup := by
  intro o; cases o <;> simp [Outcome.isDedup] <;> exact inferInstance

instance : ∀ o : Outcome, Decidable o.isQuarantined := by
  intro o; cases o <;> simp [Outcome.isQuarantined] <;> exact inferInstance

/-- One quarantine row as written by repo.quarantine, keeping the columns the
pipeline fills from the candidate (quarantine_records table of orm.py). -/
structure QuarRec where
  patient_id : Nat
  source : String
  pipeline_stage : String
  quarantine_reason : String
  fingerprint : Option String
deriving DecidableEq, Repr

/-- Quarantine row written on a validation failure (pipeline.py lines 136
to 155): stage validation, reason the first violation. -/
def valQuar (c : Candidate) (reason : String) : QuarRec :=
  ⟨c.patient_id, c.source.value, "validation", reason, some c.fingerprint⟩

/-- Quarantine row written after an IntegrityError on the secondary
constraint (pipeline.py lines 195 to 211). -/
def sridQuar (c : Candidate) : QuarRec :=
  ⟨c.patient_id, c.source.value, "upsert", "source_record_id_reused_across_dates",
    some c.fingerprint⟩

/-- Transactional state of one ingest call.  The API layer commits the
idempotency claim just before invoking the pipeline (api.py line 135) and the
pipeline commits only once, after its loop (pipeline.py line 248), so every
write the loop performs stays uncommitted until then.  committed is the
sleep_days store as of the last commit, the state session.rollback() reverts
to; pending is the sleep_days store as seen inside the open transaction;
quars are the uncommitted quarantine rows of the open transaction;
raw_pending says whether the bronze raw_vendor_responses row written at the
start of the call is still part of the open transaction. -/
structure PipeState where
  committed : List Row
  pending : List Row
  quars : List QuarRec
  raw_pending : Bool
deriving DecidableEq, Repr

/-- One iteration of the ingest loop of pipeline.py (lines 130 to 238): run
validation; on violations write a quarantine row with the first violation
reason; else attempt the upsert, the was_inserted flag alone classifying
created versus deduplicated.  An IntegrityError on the secondary constraint
triggers session.rollback() (pipeline.py line 192), which reverts the open
transaction to the last committed state — dropping the raw archive row and
every earlier uncommitted write of the batch — after which the quarantine row
is written into a fresh transaction and the loop continues. -/
def stepDb (today : Pydate) (now : Int) (st : PipeState) (c : Candidate) :
    PipeState × Outcome :=
  match validate_sleep_record today (toValRecord c) with
  | e :: _ =>
      ({ st with quars := st.quars ++ [valQuar c e.reason] },
        .quarantined "validation" e.reason (some c.fingerprint))
  | [] =>
      match upsert now st.pending (rowOf c) with
      | .ok db1 rid w =>
          ({ st with pending := db1 }, if w then .created rid else .deduplicated rid)
      | .integrityError =>
          (⟨st.committed, st.committed, [sridQuar c], false⟩,
            .quarantined "upsert" "source_record_id_reused_across_dates"
              (some c.fingerprint))

/-- The ingest loop over a batch of parsed candidates: final transactional
state plus the per-candidate outcome trace in input order. -/
def runTrace (today : Pydate) (now : Int) : PipeState → List Candidate →
    PipeState × List Outcome
  | st, [] => (st, [])
  | st, c :: cs =>
      ((runTrace today now (stepDb today now st c).1 cs).1,
        (stepDb today now st c).2 :: (runTrace today now (stepDb today now st c).1 cs).2)

/-- State at the start of the loop: committed and pending stores coincide, no
quarantine row is pending, and the bronze raw-response row has just been
written into the open transaction (pipeline.py lines 96 to 105). -/
def initState (db : List Row) : PipeState := ⟨db, db, [], true⟩

/-- Model of ingest_sleep_data restricted to the path where adapter parsing
succeeded: archive the raw payload, run the loop from the committed store db,
then commit once (pipeline.py line 248), making the final state durable. -/
def ingest_sleep_data (today : Pydate) (now : Int) (db : List Row)
    (cands : List Candidate) : PipeState × List Outcome :=
  runTrace today now (initState db) cands

/-- Aggregate counters of IngestResult, mirroring the dataclass fields. -/
structure IngestCounters where
  records_processed : Nat
  records_inserted : Nat
  records_updated : Nat
  records_quarantined : Nat
deriving DecidableEq, Repr

/-- Counter increments the loop performs for one outcome. -/
def bumpCounters (r : IngestCounters) : Outcome → IngestCounters
  | .created _ =>
      { r with records_inserted := r.records_inserted + 1,
               records_processed := r.records_processed + 1 }
  | .deduplicated _ =>
      { r with records_updated := r.records_updated + 1,
               records_processed := r.records_processed + 1 }
  | .quarantined _ _ _ =>
      { r with records_quarantined := r.records_quarantined + 1 }

/-- Counters accumulated over a whole trace, from the zero-initialised
IngestResult. -/
def aggregate (os : List Outcome) : IngestCounters :=
  os.foldl bumpCounters ⟨0, 0, 0, 0⟩

/-- Per-record result entry, mirroring IngestRecordResult: quarantined entries
carry an empty sleep_day_id. -/
structure IngestRecordResult where
  sleep_day_id : String
  status : String
deriving DecidableEq, Repr

/-- Result entry built from one outcome. -/
def toResult : Outcome → IngestRecordResult
  | .created i => ⟨toString i, "created"⟩
  | .deduplicated i => ⟨toString i, "deduplicated"⟩
  | .quarantined _ _ _ => ⟨"", "quarantined"⟩

theorem fps_cons (r : Row) (rs : List Row) :
    fps (r :: rs) = r.fingerprint :: fps rs := rfl

theorem findRow_eq_none_iff (f : String) (db : List Row) :
    findRow f db = none ↔ f ∉ fps db := by
  induction db with
  | nil => simp [findRow, fps]
  | cons r rs ih =>
      unfold findRow
      rw [fps_cons]
      by_cases h : r.fingerprint = f
      · rw [if_pos h]
        simp [← h]
      · rw [if_neg h, ih]
        constructor
        · intro h2 h3
          rcases List.mem_cons.mp h3 with h4 | h4
          · exact h h4.symm
          · exact h2 h4
        · intro h2 h3
          exact h2 (List.mem_cons_of_mem _ h3)

theorem findRow_mem (f : String) (db : List Row) (r : Row)
    (h : findRow f db = some r) : r ∈ db ∧ r.fingerprint = f := by
  induction db with
  | nil => simp [findRow] at h
  | cons q qs ih =>
      unfold findRow at h
      by_cases hq : q.fingerprint = f
      · rw [if_pos hq] at h
        obtain rfl : q = r := by injection h
        exact ⟨List.mem_cons_self _ _, hq⟩
      · rw [if_neg hq] at h
        obtain ⟨h1, h2⟩ := ih h
        exact ⟨List.mem_cons_of_mem _ h1, h2⟩

theorem findRow_of_nodup (f : String) (db : List Row) (r : Row)
    (hnd : (fps db).Nodup) (hr : r ∈ db) (hf : r.fingerprint = f) :
    findRow f db = some r := by
  induction db with
  | nil => simp at hr
  | cons q qs ih =>
      rw [fps_cons, List.nodup_cons] at hnd
      rcases List.mem_cons.mp hr with rfl | hr2
      · unfold findRow
        rw [if_pos hf]
      · unfold findRow
        have hq : q.fingerprint ≠ f := by
          intro hqf
          apply hnd.1
          rw [hqf, ← hf]
          exact List.mem_map_of_mem _ hr2
        rw [if_neg hq]
        exact ih hnd.2 hr2

theorem applyMutable_fingerprint (now : Int) (q rec : Row) :
    (applyMutable now q rec).fingerprint = q.fingerprint := rfl

theorem fps_updateByFingerprint (now : Int) (db : List Row) (rec : Row) :
    fps (updateByFingerprint now db rec) = fps db := by
  unfold fps updateByFingerprint
  rw [List.map_map]
  refine List.map_congr_left ?_
  intro q _
  by_cases h : q.fingerprint = rec.fingerprint <;> simp [h, applyMutable_fingerprint]

theorem fps_append (db : List Row) (rec : Row) :
    fps (db ++ [rec]) = fps db ++ [rec.fingerprint] := by
  simp [fps]

/-- C4: on a fingerprint conflict the upsert updates exactly the listed
mutable columns of the matching row, leaves every identity and provenance
column and every other row untouched, adds no row, and returns was_inserted
false with the existing row id; an upsert that reports was_inserted true
appended a brand-new row (its fingerprint was absent); and in the pipeline
the was_inserted flag alone decides created versus deduplicated. -/
theorem upsert_frame (now : Int) (db : List Row) (rec row : Row)
    (hnd : (fps db).Nodup) (hmem : row ∈ db) (hfp : row.fingerprint = rec.fingerprint) :
    upsert now db rec = .ok (updateByFingerprint now db rec) row.id false ∧
    (updateByFingerprint now db rec).length = db.length ∧
    (∀ q ∈ db, q.fingerprint ≠ rec.fingerprint → q ∈ updateByFingerprint now db rec) ∧
    applyMutable now row rec ∈ updateByFingerprint now db rec ∧
    ((applyMutable now row rec).id = row.id ∧
      (applyMutable now row rec).patient_id = row.patient_id ∧
      (applyMutable now row rec).source = row.source ∧
      (applyMutable now row rec).source_record_id = row.source_record_id ∧
      (applyMutable now row rec).effective_date = row.effective_date ∧
      (applyMutable now row rec).fingerprint = row.fingerprint ∧
      (applyMutable now row rec).ingested_at = row.ingested_at) ∧
    ((applyMutable now row rec).total_sleep_minutes = rec.total_sleep_minutes ∧
      (applyMutable now row rec).deep_sleep_minutes = rec.deep_sleep_minutes ∧
      (applyMutable now row rec).light_sleep_minutes = rec.light_sleep_minutes ∧
      (applyMutable now row rec).rem_sleep_minutes = rec.rem_sleep_minutes ∧
      (applyMutable now row rec).awake_minutes = rec.awake_minutes ∧
      (applyMutable now row rec).sleep_onset = rec.sleep_onset ∧
      (applyMutable now row rec).sleep_offset = rec.sleep_offset ∧
      (applyMutable now row rec).sleep_efficiency = rec.sleep_efficiency ∧
      (applyMutable now row rec).extra = rec.extra ∧
      (applyMutable now row rec).raw_payload = rec.raw_payload ∧
      (applyMutable now row rec).updated_at = now) ∧
    (∀ db2 rec2 db2' i2, upsert now db2 rec2 = .ok db2' i2 true →
      rec2.fingerprint ∉ fps db2 ∧ db2' = db2 ++ [rec2] ∧ i2 = rec2.id) ∧
    (∀ today : Pydate, ∀ st : PipeState, ∀ c : Candidate, ∀ db3' : List Row,
      ∀ i3 : Nat, ∀ w3 : Bool,
      validate_sleep_record today (toValRecord c) = [] →
      upsert now st.pending (rowOf c) = .ok db3' i3 w3 →
      stepDb today now st c =
        ({ st with pending := db3' }, if w3 then .created i3 else .deduplicated i3)) := by
  refine ⟨?_, by simp [updateByFingerprint], ?_, ?_, by simp [applyMutable],
    by simp [applyMutable], ?_, ?_⟩
  · unfold upsert
    rw [findRow_of_nodup rec.fingerprint db row hnd hmem hfp]
  · intro q hq hne
    unfold updateByFingerprint
    exact List.mem_map.mpr ⟨q, hq, by rw [if_neg hne]⟩
  · unfold updateByFingerprint
    exact List.mem_map.mpr ⟨row, hmem, by rw [if_pos hfp]⟩
  · intro db2 rec2 db2' i2 h
    unfold upsert at h
    rcases hfind : findRow rec2.fingerprint db2 with _ | r2
    · rw [hfind] at h
      by_cases hs : hasSrid db2 rec2.source rec2.source_record_id
      · rw [if_pos hs] at h
        exact absurd h (by simp)
      · rw [if_neg hs] at h
        injection h with h1 h2 h3
        exact ⟨(findRow_eq_none_iff _ _).mp hfind, h1.symm, h2.symm⟩
    · rw [hfind] at h
      injection h with h1 h2 h3
      exact absurd h3.symm (by simp)
  · intro today st c db3' i3 w3 hval hup
    unfold stepDb
    rw [hval, hup]

/-- Store and candidate data used to witness the upsert frame theorem. -/
def frameRow : Row :=
  ⟨1, 7, "oura", "rid-1", "fp-1", ⟨2024, 1, 1⟩, 100, 100, some 400, some 80,
    some 200, some 90, some 30, none, none, none, "{}", "{}"⟩

/-- Incoming row carrying the same fingerprint with new measurements. -/
def frameRec : Row :=
  ⟨2, 7, "oura", "rid-1", "fp-1", ⟨2024, 1, 1⟩, 200, 200, some 410, some 82,
    some 205, some 91, some 32, none, none, none, "{}", "{}"⟩

/-- Witness for the upsert frame theorem at a concrete one-row store. -/
theorem upsert_frame_w :
    ((fps [frameRow]).Nodup ∧ frameRow ∈ [frameRow] ∧
      frameRow.fingerprint = frameRec.fingerprint) ∧
    upsert 200 [frameRow] frameRec =
      .ok (updateByFingerprint 200 [frameRow] frameRec) frameRow.id false :=
  ⟨⟨by decide, by decide, by decide⟩,
    (upsert_frame 200 [frameRow] frameRec frameRow (by decide) (by decide) (by decide)).1⟩

theorem runTrace_nil (today : Pydate) (now : Int) (st : PipeState) :
    runTrace today now st [] = (st, []) := rfl

theorem runTrace_cons (today : Pydate) (now : Int) (st : PipeState)
    (c : Candidate) (cs : List Candidate) :
    runTrace today now st (c :: cs) =
      ((runTrace today now (stepDb today now st c).1 cs).1,
        (stepDb today now st c).2 :: (runTrace today now (stepDb today now st c).1 cs).2) :=
  rfl

theorem runTrace_cons_fst (today : Pydate) (now : Int) (st : PipeState)
    (c : Candidate) (cs : List Candidate) :
    (runTrace today now st (c :: cs)).1 =
      (runTrace today now (stepDb today now st c).1 cs).1 := rfl

theorem runTrace_cons_snd (today : Pydate) (now : Int) (st : PipeState)
    (c : Candidate) (cs : List Candidate) :
    (runTrace today now st (c :: cs)).2 =
      (stepDb today now st c).2 :: (runTrace today now (stepDb today now st c).1 cs).2 := rfl

theorem runTrace_length (today : Pydate) (now : Int) :
    ∀ (l : List Candidate) (st : PipeState), (runTrace today now st l).2.length = l.length := by
  intro l
  induction l with
  | nil => intro st; rfl
  | cons c cs ih => intro st; rw [runTrace_cons]; simp [ih]

/-- C3: a valid candidate whose fingerprint is new in the pending store but
whose (source, source_record_id) pair collides with a stored row hits the
secondary constraint; the pipeline swallows the IntegrityError instead of
propagating it: the handler rolls the open transaction back to the committed
store (pipeline.py line 192), writes exactly one quarantine record with
reason source_record_id_reused_across_dates for that candidate into the fresh
transaction, records the outcome quarantined with an empty record id, and
continues with the remaining candidates of the batch from the rolled-back
state, yielding one result per remaining candidate. -/
theorem srid_collision_quarantines (today : Pydate) (now : Int) (st : PipeState)
    (c : Candidate) (rest : List Candidate)
    (hval : validate_sleep_record today (toValRecord c) = [])
    (hfp : c.fingerprint ∉ fps st.pending)
    (hsr : hasSrid st.pending c.source.value c.source_record_id) :
    stepDb today now st c =
      (⟨st.committed, st.committed, [sridQuar c], false⟩,
        .quarantined "upsert" "source_record_id_reused_across_dates"
          (some c.fingerprint)) ∧
    (stepDb today now st c).1.quars = [sridQuar c] ∧
    (sridQuar c).quarantine_reason = "source_record_id_reused_across_dates" ∧
    toResult (stepDb today now st c).2 = ⟨"", "quarantined"⟩ ∧
    runTrace today now st (c :: rest) =
      ((runTrace today now ⟨st.committed, st.committed, [sridQuar c], false⟩ rest).1,
        .quarantined "upsert" "source_record_id_reused_across_dates" (some c.fingerprint)
          :: (runTrace today now
            ⟨st.committed, st.committed, [sridQuar c], false⟩ rest).2) ∧
    (runTrace today now st (c :: rest)).2.length = rest.length + 1 := by
  have hup : upsert now st.pending (rowOf c) = .integrityError := by
    have hnone : findRow (rowOf c).fingerprint st.pending = none := by
      rw [findRow_eq_none_iff]
      exact hfp
    unfold upsert
    rw [hnone]
    show (if hasSrid st.pending c.source.value c.source_record_id then
        UpsertOut.integrityError
      else UpsertOut.ok (st.pending ++ [rowOf c]) (rowOf c).id true) =
        UpsertOut.integrityError
    rw [if_pos hsr]
  have hstep : stepDb today now st c =
      (⟨st.committed, st.committed, [sridQuar c], false⟩,
        .quarantined "upsert" "source_record_id_reused_across_dates"
          (some c.fingerprint)) := by
    unfold stepDb
    rw [hval, hup]
  refine ⟨hstep, by rw [hstep], rfl, by rw [hstep]; rfl, ?_, ?_⟩
  · rw [runTrace_cons, hstep]
  · rw [runTrace_length, List.length_cons]

/-- Conflicting candidate used to witness the srid-collision theorem: same
vendor-native id as the stored row but a different effective date, hence a
different fingerprint. -/
def collidingCand : Candidate :=
  ⟨3, 7, .oura, "rid-1", "fp-2", ⟨2024, 1, 2⟩, 300, 300, none, none, none,
    none, none, none, none, none, "{}", "{}"⟩

/-- Witness for the srid-collision theorem at a concrete one-row store. -/
theorem srid_collision_quarantines_w :
    (validate_sleep_record today0 (toValRecord collidingCand) = [] ∧
      collidingCand.fingerprint ∉ fps (initState [frameRow]).pending ∧
      hasSrid (initState [frameRow]).pending collidingCand.source.value
        collidingCand.source_record_id) ∧
    stepDb today0 300 (initState [frameRow]) collidingCand =
      (⟨[frameRow], [frameRow], [sridQuar collidingCand], false⟩,
        .quarantined "upsert" "source_record_id_reused_across_dates"
          (some collidingCand.fingerprint)) :=
  ⟨⟨by decide, by decide, by decide⟩,
    (srid_collision_quarantines today0 300 (initState [frameRow]) collidingCand []
      (by decide) (by decide) (by decide)).1⟩

/-- Count of created outcomes in a trace. -/
def countCreated : List Outcome → Nat
  | [] => 0
  | .created _ :: os => countCreated os + 1
  | .deduplicated _ :: os => countCreated os
  | .quarantined _ _ _ :: os => countCreated os

/-- Count of deduplicated outcomes in a trace. -/
def countDedup : List Outcome → Nat
  | [] => 0
  | .created _ :: os => countDedup os
  | .deduplicated _ :: os => countDedup os + 1
  | .quarantined _ _ _ :: os => countDedup os

/-- Count of quarantined outcomes in a trace. -/
def countQuar : List Outcome → Nat
  | [] => 0
  | .created _ :: os => countQuar os
  | .deduplicated _ :: os => countQuar os
  | .quarantined _ _ _ :: os => countQuar os + 1

theorem bumpCounters_foldl (os : List Outcome) :
    ∀ init : IngestCounters,
      os.foldl bumpCounters init =
        ⟨init.records_processed + (countCreated os + countDedup os),
          init.records_inserted + countCreated os,
          init.records_updated + countDedup os,
          init.records_quarantined + countQuar os⟩ := by
  induction os with
  | nil => intro init; simp [countCreated, countDedup, countQuar]
  | cons o os ih =>
      intro init
      rw [List.foldl_cons, ih]
      cases o <;>
        simp [bumpCounters, countCreated, countDedup, countQuar,
          IngestCounters.mk.injEq] <;> omega

theorem outcome_count_total (os : List Outcome) :
    countCreated os + countDedup os + countQuar os = os.length := by
  induction os with
  | nil => rfl
  | cons o os ih =>
      cases o <;> simp [countCreated, countDedup, countQuar] <;> omega

/-- C10: whenever adapter parsing succeeds, the ingest result carries exactly
one per-record entry per mapped candidate, the inserted, updated and
quarantined counters sum to the number of candidates, records_processed counts
only inserts plus updates (quarantined candidates are excluded), and every
quarantined entry has an empty record id. -/
theorem ingest_result_invariant (today : Pydate) (now : Int) (db : List Row)
    (cands : List Candidate) :
    ((ingest_sleep_data today now db cands).2.map toResult).length = cands.length ∧
    (aggregate (ingest_sleep_data today now db cands).2).records_inserted +
        (aggregate (ingest_sleep_data today now db cands).2).records_updated +
        (aggregate (ingest_sleep_data today now db cands).2).records_quarantined =
      cands.length ∧
    (aggregate (ingest_sleep_data today now db cands).2).records_processed =
      (aggregate (ingest_sleep_data today now db cands).2).records_inserted +
        (aggregate (ingest_sleep_data today now db cands).2).records_updated ∧
    ∀ rr ∈ (ingest_sleep_data today now db cands).2.map toResult,
      rr.status = "quarantined" → rr.sleep_day_id = "" := by
  have htr : (ingest_sleep_data today now db cands).2.length = cands.length :=
    runTrace_length today now cands (initState db)
  have htot := outcome_count_total (ingest_sleep_data today now db cands).2
  have hagg : aggregate (ingest_sleep_data today now db cands).2 =
      ⟨0 + (countCreated (ingest_sleep_data today now db cands).2 +
          countDedup (ingest_sleep_data today now db cands).2),
        0 + countCreated (ingest_sleep_data today now db cands).2,
        0 + countDedup (ingest_sleep_data today now db cands).2,
        0 + countQuar (ingest_sleep_data today now db cands).2⟩ :=
    bumpCounters_foldl _ _
  refine ⟨?_, ?_, ?_, ?_⟩
  · rw [List.length_map]
    exact htr
  · rw [hagg]
    dsimp only
    omega
  · rw [hagg]
    dsimp only
    omega
  · intro rr hrr hq
    obtain ⟨o, _, ho⟩ := List.mem_map.mp hrr
    cases o with
    | created i =>
        rw [← ho] at hq
        exact absurd hq (by simp [toResult])
    | deduplicated i =>
        rw [← ho] at hq
        exact absurd hq (by simp [toResult])
    | quarantined st re f =>
        rw [← ho]
        rfl

/-- Agreement of two parsed candidates on everything the pipeline inspects:
all fields of the SleepDay model except the generated id and the two parse
timestamps, which differ between two parses of the same raw bytes. -/
def CandEq (a b : Candidate) : Prop :=
  a.patient_id = b.patient_id ∧ a.source = b.source ∧
    a.source_record_id = b.source_record_id ∧ a.fingerprint = b.fingerprint ∧
    a.effective_date = b.effective_date ∧
    a.total_sleep_minutes = b.total_sleep_minutes ∧
    a.deep_sleep_minutes = b.deep_sleep_minutes ∧
    a.light_sleep_minutes = b.light_sleep_minutes ∧
    a.rem_sleep_minutes = b.rem_sleep_minutes ∧
    a.awake_minutes = b.awake_minutes ∧
    a.sleep_onset = b.sleep_onset ∧ a.sleep_offset = b.sleep_offset ∧
    a.sleep_efficiency = b.sleep_efficiency ∧
    a.extra = b.extra ∧ a.raw_payload = b.raw_payload

instance (a b : Candidate) : Decidable (CandEq a b) := by
  unfold CandEq; exact inferInstance

/-- First parse, first entry of the replayed two-entry payload: a record
whose fingerprint and vendor-native id are new to the store. -/
def bugCandA : Candidate :=
  ⟨10, 7, .oura, "rid-9", "fp-9a", ⟨2024, 2, 1⟩, 100, 100, none, none, none,
    none, none, none, none, none, "{}", "{}"⟩

/-- First parse, second entry: the same vendor-native id reused for a
different effective date, hence a different fingerprint that hits the
secondary (source, source_record_id) constraint once the first entry is
pending. -/
def bugCandB : Candidate :=
  ⟨11, 7, .oura, "rid-9", "fp-9b", ⟨2024, 2, 2⟩, 100, 100, none, none, none,
    none, none, none, none, none, "{}", "{}"⟩

/-- Second parse of the same raw bytes, first entry: new generated id and
parse timestamps, every other field identical. -/
def bugCandA2 : Candidate :=
  ⟨20, 7, .oura, "rid-9", "fp-9a", ⟨2024, 2, 1⟩, 200, 200, none, none, none,
    none, none, none, none, none, "{}", "{}"⟩

/-- Second parse of the same raw bytes, second entry. -/
def bugCandB2 : Candidate :=
  ⟨21, 7, .oura, "rid-9", "fp-9b", ⟨2024, 2, 2⟩, 200, 200, none, none, none,
    none, none, none, none, none, "{}", "{}"⟩

/-- C1: ingestion is claimed idempotent — replaying a byte-identical payload
should report records_inserted = 0, turn created into deduplicated, and leave
one canonical row per fingerprint.  Evaluating the model at a two-entry batch
whose second entry reuses the first entry vendor-native id for another date
refutes this for the code as written: the IntegrityError handler rolls the
open transaction back (pipeline.py line 192), reverting the first entry
uncommitted row and the raw archive row before quarantining, while the
in-memory counters keep their increments; so the first call reports
records_inserted = 1 yet commits no row, and the byte-identical second call
again reports records_inserted = 1 with its first entry classified created,
never deduplicated; after both calls no row carries the created fingerprint.
The two parses agree on every field but ids and timestamps (the Forall₂
CandEq conjunct), so this is exactly the replay the claim quantifies over,
and the code contradicts both the claim and its own module docstring
(pipeline.py lines 1 to 6: idempotent end-to-end, safe to replay). -/
theorem ingest_replay_rollback_bug :
    List.Forall₂ CandEq [bugCandA, bugCandB] [bugCandA2, bugCandB2] ∧
    (ingest_sleep_data today0 100 [] [bugCandA, bugCandB]).2 =
      [.created 10,
        .quarantined "upsert" "source_record_id_reused_across_dates" (some "fp-9b")] ∧
    (aggregate
      (ingest_sleep_data today0 100 [] [bugCandA, bugCandB]).2).records_inserted = 1 ∧
    (ingest_sleep_data today0 100 [] [bugCandA, bugCandB]).1.pending = [] ∧
    (ingest_sleep_data today0 100 [] [bugCandA, bugCandB]).1.raw_pending = false ∧
    (ingest_sleep_data today0 200
        (ingest_sleep_data today0 100 [] [bugCandA, bugCandB]).1.pending
        [bugCandA2, bugCandB2]).2 =
      [.created 20,
        .quarantined "upsert" "source_record_id_reused_across_dates" (some "fp-9b")] ∧
    (aggregate (ingest_sleep_data today0 200
        (ingest_sleep_data today0 100 [] [bugCandA, bugCandB]).1.pending
        [bugCandA2, bugCandB2]).2).records_inserted = 1 ∧
    (ingest_sleep_data today0 200
        (ingest_sleep_data today0 100 [] [bugCandA, bugCandB]).1.pending
        [bugCandA2, bugCandB2]).1.pending = [] := by
  refine ⟨List.Forall₂.cons (by decide)
    (List.Forall₂.cons (by decide) List.Forall₂.nil), ?_⟩
  decide

/-- Word size modulus for SHA-256 arithmetic. -/
def M32 : Nat := 4294967296

/-- Right rotation of a 32-bit word given as a Nat below M32. -/
def rotr (n x : Nat) : Nat := x / 2 ^ n + x % 2 ^ n * 2 ^ (32 - n)

/-- Logical right shift of a 32-bit word. -/
def shr (n x : Nat) : Nat := x / 2 ^ n

/-- Bitwise complement within 32 bits. -/
def bnot32 (x : Nat) : Nat := x ^^^ (M32 - 1)

def bsig0 (x : Nat) : Nat := rotr 2 x ^^^ rotr 13 x ^^^ rotr 22 x

def bsig1 (x : Nat) : Nat := rotr 6 x ^^^ rotr 11 x ^^^ rotr 25 x

def ssig0 (x : Nat) : Nat := rotr 7 x ^^^ rotr 18 x ^^^ shr 3 x

def ssig1 (x : Nat) : Nat := rotr 17 x ^^^ rotr 19 x ^^^ shr 10 x

def chF (e f g : Nat) : Nat := (e &&& f) ^^^ (bnot32 e &&& g)

def majF (a b c : Nat) : Nat := (a &&& b) ^^^ (a &&& c) ^^^ (b &&& c)

/-- SHA-256 round constants. -/
def sha256K : List Nat :=
  [ 1116352408, 1899447441, 3049323471, 3921009573, 961987163, 1508970993,
    2453635748, 2870763221, 3624381080, 310598401, 607225278, 1426881987,
    1925078388, 2162078206, 2614888103, 3248222580, 3835390401, 4022224774,
    264347078, 604807628, 770255983, 1249150122, 1555081692, 1996064986,
    2554220882, 2821834349, 2952996808, 3210313671, 3336571891, 3584528711,
    113926993, 338241895, 666307205, 773529912, 1294757372, 1396182291,
    1695183700, 1986661051, 2177026350, 2456956037, 2730485921, 2820302411,
    3259730800, 3345764771, 3516065817, 3600352804, 4094571909, 275423344,
    430227734, 506948616, 659060556, 883997877, 958139571, 1322822218,
    1537002063, 1747873779, 1955562222, 2024104815, 2227730452, 2361852424,
    2428436474, 2756734187, 3204031479, 3329325298]

/-- SHA-256 initial hash values. -/
def sha256H0 : List Nat :=
  [ 1779033703, 3144134277, 1013904242, 2773480762, 1359893119, 2600822924,
    528734635, 1541459225]

/-- Big-endian byte expansion of n over k bytes. -/
def bytesBE (k n : Nat) : List Nat :=
  (List.range k).map fun i => n / 2 ^ (8 * (k - 1 - i)) % 256

/-- SHA-256 padding: append 0x80, zeros to 56 mod 64, and the 8-byte
big-endian bit length. -/
def padMessage (m : List Nat) : List Nat :=
  m ++ 0x80 :: List.replicate ((64 - (m.length + 9) % 64) % 64) 0 ++ bytesBE 8 (8 * m.length)

/-- Split a byte list into 64-byte chunks. -/
def toChunks : List Nat → List (List Nat)
  | [] => []
  | a :: rest => ((a :: rest).take 64) :: toChunks ((a :: rest).drop 64)
termination_by l => l.length
decreasing_by simp [List.length_drop]; omega

/-- First sixteen 32-bit big-endian words of one chunk. -/
def wordsOfChunk (c : List Nat) : List Nat :=
  (List.range 16).map fun i =>
    c.getD (4 * i) 0 * 2 ^ 24 + c.getD (4 * i + 1) 0 * 2 ^ 16 +
      c.getD (4 * i + 2) 0 * 2 ^ 8 + c.getD (4 * i + 3) 0

/-- One step of the message-schedule extension (newest word at the end). -/
def extendSchedule (ws : List Nat) : List Nat :=
  ws ++ [(ssig1 (ws.getD (ws.length - 2) 0) + ws.getD (ws.length - 7) 0 +
    ssig0 (ws.getD (ws.length - 15) 0) + ws.getD (ws.length - 16) 0) % M32]

/-- Full 64-word message schedule. -/
def schedule (ws : List Nat) : List Nat :=
  (List.range 48).foldl (fun acc _ => extendSchedule acc) ws

/-- Working variables of the compression loop. -/
structure SHAState where
  a : Nat
  b : Nat
  c : Nat
  d : Nat
  e : Nat
  f : Nat
  g : Nat
  h : Nat

/-- One compression round, consuming a (round constant, schedule word) pair. -/
def compressStep (st : SHAState) (kw : Nat × Nat) : SHAState :=
  { a := ((st.h + bsig1 st.e + chF st.e st.f st.g + kw.1 + kw.2) % M32 +
      (bsig0 st.a + majF st.a st.b st.c) % M32) % M32,
    b := st.a, c := st.b, d := st.c,
    e := (st.d + (st.h + bsig1 st.e + chF st.e st.f st.g + kw.1 + kw.2) % M32) % M32,
    f := st.e, g := st.f, h := st.g }

/-- Process one 64-byte chunk against the running hash values. -/
def processChunk (hs : List Nat) (chunk : List Nat) : List Nat :=
  let w := schedule (wordsOfChunk chunk)
  let st := (sha256K.zip w).foldl compressStep
    ⟨hs.getD 0 0, hs.getD 1 0, hs.getD 2 0, hs.getD 3 0,
      hs.getD 4 0, hs.getD 5 0, hs.getD 6 0, hs.getD 7 0⟩
  [(hs.getD 0 0 + st.a) % M32, (hs.getD 1 0 + st.b) % M32,
   (hs.getD 2 0 + st.c) % M32, (hs.getD 3 0 + st.d) % M32,
   (hs.getD 4 0 + st.e) % M32, (hs.getD 5 0 + st.f) % M32,
   (hs.getD 6 0 + st.g) % M32, (hs.getD 7 0 + st.h) % M32]

/-- The eight 32-bit words of the SHA-256 digest of a byte message. -/
def sha256Words (m : List Nat) : List Nat :=
  (toChunks (padMessage m)).foldl processChunk sha256H0

/-- Nibbles of one 32-bit word, most significant first. -/
def wordNibbles (w : Nat) : List Nat :=
  (List.range 8).map fun j => w / 16 ^ (7 - j) % 16

/-- All 64 nibbles of the digest. -/
def digestNibbles (m : List Nat) : List Nat :=
  (sha256Words m).flatMap wordNibbles

/-- Lowercase hex character of a nibble. -/
def hexChar (n : Nat) : Char :=
  if n < 10 then Char.ofNat (48 + n) else Char.ofNat (87 + n)

/-- Hexadecimal digest characters. -/
def sha256hexList (m : List Nat) : List Char :=
  (digestNibbles m).map hexChar

/-- Hexadecimal digest string, as hashlib.sha256(...).hexdigest() returns. -/
def sha256hex (m : List Nat) : String :=
  String.mk (sha256hexList m)

/-- Fingerprint preimage characters, the f-string
source.value:source_record_id:effective_date.isoformat() of
SleepDay.compute_fingerprint. -/
def digitChar10 (n : Nat) : Char := Char.ofNat (48 + n)

/-- Two zero-padded decimal digits, as format 02d produces for 0..99. -/
def pad2 (n : Nat) : List Char := [digitChar10 (n / 10 % 10), digitChar10 (n % 10)]

/-- Four zero-padded decimal digits, as format 04d produces for 0..9999. -/
def pad4 (n : Nat) : List Char :=
  [digitChar10 (n / 1000 % 10), digitChar10 (n / 100 % 10),
   digitChar10 (n / 10 % 10), digitChar10 (n % 10)]

/-- ISO format YYYY-MM-DD of a date, as Python date.isoformat() returns. -/
def Pydate.isoformat (d : Pydate) : List Char :=
  pad4 d.year ++ '-' :: (pad2 d.month ++ '-' :: pad2 d.day)

def fingerprint_preimage (s : Source) (rid : String) (d : Pydate) : List Char :=
  s.chars ++ ':' :: (rid.data ++ ':' :: d.isoformat)

/-- UTF-8 bytes of the preimage string, as str.encode() produces. -/
def preimageBytes (s : Source) (rid : String) (d : Pydate) : List Nat :=
  (String.mk (fingerprint_preimage s rid d)).toUTF8.toList.map fun b => b.toNat

/-- Model of SleepDay.compute_fingerprint: hex SHA-256 digest of
source:source_record_id:effective_date. -/
def compute_fingerprint (s : Source) (rid : String) (d : Pydate) : String :=
  sha256hex (preimageBytes s rid d)

/-- Rounding half to even at the integer level, the behavior of the Python
built-in round for ties. -/
def bankersRound (q : ℚ) : ℤ :=
  if q - ⌊q⌋ < 1 / 2 then ⌊q⌋
  else if 1 / 2 < q - ⌊q⌋ then ⌊q⌋ + 1
  else if 2 ∣ ⌊q⌋ then ⌊q⌋ else ⌊q⌋ + 1

theorem bankersRound_intCast (n : ℤ) : bankersRound (n : ℚ) = n := by
  unfold bankersRound
  rw [Int.floor_intCast]
  rw [if_pos (by norm_num)]

/-- Python round(x, 4). -/
def pyRound4 (q : ℚ) : ℚ := (bankersRound (q * 10000) : ℚ) / 10000

/-- Model of _sec_to_min of oura_mapper.py and withings_mapper.py: seconds to
minutes via Python floor division, None passthrough. -/
def sec_to_min (s : Option Int) : Option Int := s.map fun v => Int.fdiv v 60

/-- Model of _pct_to_ratio of oura_mapper.py: 0-100 percentage to a 0.0-1.0
fraction rounded to 4 decimals, None passthrough. -/
def pct_to_ratio4 (p : Option Int) : Option ℚ :=
  p.map fun v : Int => pyRound4 ((v : ℚ) / 100)

/-- One entry of the Oura V2 data array, restricted to the fields the mapper
promotes to typed canonical columns plus the filter fields (extension-map
fields are untouched by the claims and omitted). -/
structure OuraEntry where
  id : String
  day : Pydate
  type : Option String
  period : Option Int
  total_sleep_duration : Option Int
  deep_sleep_duration : Option Int
  light_sleep_duration : Option Int
  rem_sleep_duration : Option Int
  awake_time : Option Int
  efficiency : Option Int
  bedtime_start : Option Dt
  bedtime_end : Option Dt
deriving DecidableEq, Repr

/-- Canonical fields produced by OuraMapper.parse for one accepted entry. -/
structure OuraParsed where
  source_record_id : String
  effective_date : Pydate
  fingerprint : String
  total_sleep_minutes : Option Int
  deep_sleep_minutes : Option Int
  light_sleep_minutes : Option Int
  rem_sleep_minutes : Option Int
  awake_minutes : Option Int
  sleep_onset : Option Dt
  sleep_offset : Option Dt
  sleep_efficiency : Option ℚ
deriving DecidableEq, Repr

/-- Model of OuraMapper.parse: keep only entries with type long_sleep and
period 0 (absent period defaults to 0), then convert units and compute the
fingerprint. -/
def OuraMapper_parse (entries : List OuraEntry) : List OuraParsed :=
  (entries.filter fun e => e.type == some "long_sleep" && e.period.getD 0 == 0).map
    fun e =>
      { source_record_id := e.id, effective_date := e.day,
        fingerprint := compute_fingerprint Source.oura e.id e.day,
        total_sleep_minutes := sec_to_min e.total_sleep_duration,
        deep_sleep_minutes := sec_to_min e.deep_sleep_duration,
        light_sleep_minutes := sec_to_min e.light_sleep_duration,
        rem_sleep_minutes := sec_to_min e.rem_sleep_duration,
        awake_minutes := sec_to_min e.awake_time,
        sleep_onset := e.bedtime_start, sleep_offset := e.bedtime_end,
        sleep_efficiency := pct_to_ratio4 e.efficiency }

/-- Oura entry from the C7 scenario. -/
def ouraEntry0 : OuraEntry :=
  ⟨"sleep-1", ⟨2024, 1, 5⟩, some "long_sleep", some 0, some 26010, some 5160,
    some 15600, some 5400, some 2340, some 88, none, none⟩

/-- C7: the vendor-a adapter converts seconds to minutes by integer floor
division (characterized by the floor inequalities) and integer percentages to
an exact fraction over 100 (the 4-decimal rounding is the identity there),
and on the scenario entry produces total 433, deep 86, light 260, rem 90,
awake 39 minutes and efficiency 0.88. -/
theorem oura_unit_conversion :
    (∀ s m : Int, 0 ≤ s → sec_to_min (some s) = some m →
      60 * m ≤ s ∧ s < 60 * m + 60) ∧
    (∀ p : Int, pct_to_ratio4 (some p) = some ((p : ℚ) / 100)) ∧
    ((OuraMapper_parse [ouraEntry0]).map fun r => r.total_sleep_minutes) = [some 433] ∧
    ((OuraMapper_parse [ouraEntry0]).map fun r => r.deep_sleep_minutes) = [some 86] ∧
    ((OuraMapper_parse [ouraEntry0]).map fun r => r.light_sleep_minutes) = [some 260] ∧
    ((OuraMapper_parse [ouraEntry0]).map fun r => r.rem_sleep_minutes) = [some 90] ∧
    ((OuraMapper_parse [ouraEntry0]).map fun r => r.awake_minutes) = [some 39] ∧
    ((OuraMapper_parse [ouraEntry0]).map fun r => r.sleep_efficiency) =
      [some (88 / 100 : ℚ)] := by
  have hpct : ∀ p : Int, pct_to_ratio4 (some p) = some ((p : ℚ) / 100) := by
    intro p
    unfold pct_to_ratio4 pyRound4
    rw [Option.map_some']
    have hq : ((p : ℚ) / 100) * 10000 = ((100 * p : ℤ) : ℚ) := by
      push_cast
      ring
    rw [hq, bankersRound_intCast]
    congr 1
    push_cast
    ring
  refine ⟨?_, hpct, ?_, ?_, ?_, ?_, ?_, ?_⟩
  · intro s m h0 hm
    unfold sec_to_min at hm
    rw [Option.map_some'] at hm
    injection hm with hm
    rw [Int.fdiv_eq_ediv s (by norm_num)] at hm
    omega
  · rfl
  · rfl
  · rfl
  · rfl
  · rfl
  · rw [show OuraMapper_parse [ouraEntry0] =
        [⟨"sleep-1", ⟨2024, 1, 5⟩,
          compute_fingerprint Source.oura "sleep-1" ⟨2024, 1, 5⟩,
          some 433, some 86, some 260, some 90, some 39, none, none,
          pct_to_ratio4 (some 88)⟩] from rfl]
    rw [List.map_singleton]
    rw [hpct 88]
    norm_num

/-- Witness for the floor-division characterization at the scenario input. -/
theorem oura_unit_conversion_w :
    ((0 : Int) ≤ 26010 ∧ sec_to_min (some 26010) = some 433) ∧
    (60 * 433 ≤ (26010 : Int) ∧ (26010 : Int) < 60 * 433 + 60) :=
  ⟨⟨by norm_num, rfl⟩, oura_unit_conversion.1 26010 433 (by norm_num) rfl⟩

/-- Data sub-dict of one Withings series entry, restricted to the aliased
latency measurements (withings_mapper.py lines 71 to 73). -/
structure WithingsData where
  sleep_latency : Option Int
  durationtosleep : Option Int
  wakeup_latency : Option Int
  durationtowakeup : Option Int
deriving DecidableEq, Repr

/-- Python x or y on optional integers: the left operand wins only when it is
truthy, meaning present and non-zero. -/
def pyOrInt : Option Int → Option Int → Option Int
  | some v, b => if v = 0 then b else some v
  | none, b => b

/-- Resolved sleep-latency seconds: data.get sleep_latency or
data.get durationtosleep. -/
def withings_latency_sec (d : WithingsData) : Option Int :=
  pyOrInt d.sleep_latency d.durationtosleep

/-- Resolved wakeup-latency seconds: data.get wakeup_latency or
data.get durationtowakeup. -/
def withings_wakeup_latency_sec (d : WithingsData) : Option Int :=
  pyOrInt d.wakeup_latency d.durationtowakeup

/-- Modelled from the spec for comparison: alias resolution by presence, the
specific field taken whenever it is present, the legacy field only when the
specific one is absent. -/
def spec_alias_precedence : Option Int → Option Int → Option Int
  | some v, _ => some v
  | none, b => b

/-- Entry whose specific latency field is present with value 0. -/
def zeroLatencyData : WithingsData := ⟨some 0, some 300, none, none⟩

/-- C8 counterexample: with sleep_latency present but 0, the adapter resolves
the legacy durationtosleep value 300 instead of the present specific value,
because Python or falls back on falsy values, not only on absent ones. -/
theorem withings_alias_cex :
    zeroLatencyData.sleep_latency = some 0 ∧
      withings_latency_sec zeroLatencyData = some 300 ∧
      spec_alias_precedence zeroLatencyData.sleep_latency
        zeroLatencyData.durationtosleep = some 0 ∧
      withings_latency_sec zeroLatencyData ≠
        spec_alias_precedence zeroLatencyData.sleep_latency
          zeroLatencyData.durationtosleep := by
  refine ⟨rfl, rfl, rfl, ?_⟩
  decide

/-- C8 amended: the adapter resolves each aliased measurement by taking the
specific field whenever it is present with a non-zero value, and falls back to
the legacy field when the specific field is absent or present with value 0
(Python truthiness, not mere presence, decides the fallback). -/
theorem withings_alias_precedence (d : WithingsData) :
    (∀ v : Int, d.sleep_latency = some v → v ≠ 0 →
      withings_latency_sec d = some v) ∧
    (d.sleep_latency = none → withings_latency_sec d = d.durationtosleep) ∧
    (d.sleep_latency = some 0 → withings_latency_sec d = d.durationtosleep) ∧
    (∀ v : Int, d.wakeup_latency = some v → v ≠ 0 →
      withings_wakeup_latency_sec d = some v) ∧
    (d.wakeup_latency = none →
      withings_wakeup_latency_sec d = d.durationtowakeup) ∧
    (d.wakeup_latency = some 0 →
      withings_wakeup_latency_sec d = d.durationtowakeup) := by
  refine ⟨?_, ?_, ?_, ?_, ?_, ?_⟩
  · intro v hv hne
    unfold withings_latency_sec
    rw [hv]
    show (if v = 0 then d.durationtosleep else some v) = some v
    rw [if_neg hne]
  · intro hv
    unfold withings_latency_sec
    rw [hv]
    rfl
  · intro hv
    unfold withings_latency_sec
    rw [hv]
    show (if (0 : Int) = 0 then d.durationtosleep else some 0) = d.durationtosleep
    rw [if_pos rfl]
  · intro v hv hne
    unfold withings_wakeup_latency_sec
    rw [hv]
    show (if v = 0 then d.durationtowakeup else some v) = some v
    rw [if_neg hne]
  · intro hv
    unfold withings_wakeup_latency_sec
    rw [hv]
    rfl
  · intro hv
    unfold withings_wakeup_latency_sec
    rw [hv]
    show (if (0 : Int) = 0 then d.durationtowakeup else some 0) = d.durationtowakeup
    rw [if_pos rfl]

/-- Witness for the amended alias-precedence theorem at a concrete entry. -/
theorem withings_alias_precedence_w :
    ((⟨some 480, some 540, none, some 360⟩ : WithingsData).sleep_latency = some 480 ∧
      (480 : Int) ≠ 0 ∧
      (⟨some 480, some 540, none, some 360⟩ : WithingsData).wakeup_latency = none) ∧
    withings_latency_sec ⟨some 480, some 540, none, some 360⟩ = some 480 ∧
    withings_wakeup_latency_sec ⟨some 480, some 540, none, some 360⟩ = some 360 :=
  ⟨⟨rfl, by decide, rfl⟩,
    (withings_alias_precedence ⟨some 480, some 540, none, some 360⟩).1 480 rfl (by decide),
    (withings_alias_precedence ⟨some 480, some 540, none, some 360⟩).2.2.2.2.1 rfl⟩

/-- Sort and cursor key of a row: (effective_date, id). -/
def keyOf (r : Row) : Pydate × Nat := (r.effective_date, r.id)

/-- Strict lexicographic order on (date, id) keys, the keyset comparison the
timeline query uses for cursors and ordering. -/
def keyLtP (x y : Pydate × Nat) : Prop :=
  Pydate.lt x.1 y.1 ∨ (x.1 = y.1 ∧ x.2 < y.2)

instance (x y : Pydate × Nat) : Decidable (keyLtP x y) := by
  unfold keyLtP; exact inferInstance

theorem keyNotLt_trans {x y z : Pydate × Nat}
    (h1 : ¬ keyLtP x y) (h2 : ¬ keyLtP y z) : ¬ keyLtP x z := by
  obtain ⟨⟨xy, xm, xd⟩, xi⟩ := x
  obtain ⟨⟨yy, ym, yd⟩, yi⟩ := y
  obtain ⟨⟨zy, zm, zd⟩, zi⟩ := z
  simp only [keyLtP, Pydate.lt, Pydate.mk.injEq] at h1 h2 ⊢
  omega

theorem keyNotLt_total (x y : Pydate × Nat) : ¬ keyLtP x y ∨ ¬ keyLtP y x := by
  obtain ⟨⟨xy, xm, xd⟩, xi⟩ := x
  obtain ⟨⟨yy, ym, yd⟩, yi⟩ := y
  simp only [keyLtP, Pydate.lt, Pydate.mk.injEq]
  omega

/-- Order of the ORDER BY clause: descending or ascending (date, id). -/
def rowLe (desc : Bool) (a b : Row) : Prop :=
  if desc then ¬ keyLtP (keyOf a) (keyOf b) else ¬ keyLtP (keyOf b) (keyOf a)

instance (desc : Bool) (a b : Row) : Decidable (rowLe desc a b) := by
  unfold rowLe; exact inferInstance

theorem rowLe_trans (desc : Bool) (a b c : Row) (h1 : rowLe desc a b)
    (h2 : rowLe desc b c) : rowLe desc a c := by
  unfold rowLe at h1 h2 ⊢
  cases desc
  · simp only [if_neg Bool.false_ne_true] at h1 h2 ⊢
    exact keyNotLt_trans h2 h1
  · simp only [if_pos] at h1 h2 ⊢
    exact keyNotLt_trans h1 h2

theorem rowLe_total (desc : Bool) (a b : Row) : rowLe desc a b ∨ rowLe desc b a := by
  unfold rowLe
  cases desc
  · simp only [if_neg Bool.false_ne_true]
    exact keyNotLt_total (keyOf b) (keyOf a)
  · simp only [if_pos]
    exact keyNotLt_total (keyOf a) (keyOf b)

/-- WHERE clause of get_timeline: patient match, optional date bounds
(effective_date at or after start, strictly before end) and the keyset cursor
predicate in the direction of the scan. -/
def timelineKeep (patient : Nat) (s e : Option Pydate)
    (cursor : Option (Pydate × Nat)) (desc : Bool) (r : Row) : Bool :=
  decide (r.patient_id = patient) &&
    (match s with
     | some sd => decide (¬ Pydate.lt r.effective_date sd)
     | none => true) &&
    (match e with
     | some ed => decide (Pydate.lt r.effective_date ed)
     | none => true) &&
    (match cursor with
     | some cd => if desc then decide (keyLtP (keyOf r) cd) else decide (keyLtP cd (keyOf r))
     | none => true)

/-- Rows matching the timeline query before ordering. -/
def timelineFiltered (db : List Row) (patient : Nat) (s e : Option Pydate)
    (cursor : Option (Pydate × Nat)) (desc : Bool) : List Row :=
  db.filter (timelineKeep patient s e cursor desc)

/-- Matching rows in ORDER BY order; the query then fetches the first
limit + 1 of these. -/
def timelineSorted (db : List Row) (patient : Nat) (s e : Option Pydate)
    (cursor : Option (Pydate × Nat)) (desc : Bool) : List Row :=
  (timelineFiltered db patient s e cursor desc).insertionSort (rowLe desc)

/-- Rows returned to the caller: the limit + 1 fetched rows, truncated to
limit when the extra row revealed that more results exist. -/
def timelinePage (db : List Row) (patient : Nat) (s e : Option Pydate)
    (cursor : Option (Pydate × Nat)) (limit : Nat) (desc : Bool) : List Row :=
  if limit < ((timelineSorted db patient s e cursor desc).take (limit + 1)).length
  then ((timelineSorted db patient s e cursor desc).take (limit + 1)).take limit
  else (timelineSorted db patient s e cursor desc).take (limit + 1)

/-- Model of SleepDayRepository.get_timeline: page of rows plus the
continuation cursor, which encodes the (date, id) pair of the last returned
row and is present exactly when the extra fetched row showed more results. -/
def get_timeline (db : List Row) (patient : Nat) (s e : Option Pydate)
    (cursor : Option (Pydate × Nat)) (limit : Nat) (desc : Bool) :
    List Row × Option (Pydate × Nat) :=
  (timelinePage db patient s e cursor limit desc,
    if limit < ((timelineSorted db patient s e cursor desc).take (limit + 1)).length
    then (timelinePage db patient s e cursor limit desc).getLast?.map keyOf
    else none)

/-- Scenario rows: one patient, three nights with distinct dates. -/
def tRow1 : Row :=
  ⟨1, 7, "oura", "r1", "f1", ⟨2024, 1, 1⟩, 0, 0, none, none, none, none, none,
    none, none, none, "{}", "{}"⟩

def tRow2 : Row :=
  ⟨2, 7, "oura", "r2", "f2", ⟨2024, 1, 2⟩, 0, 0, none, none, none, none, none,
    none, none, none, "{}", "{}"⟩

def tRow3 : Row :=
  ⟨3, 7, "oura", "r3", "f3", ⟨2024, 1, 3⟩, 0, 0, none, none, none, none, none,
    none, none, none, "{}", "{}"⟩

/-- Scenario store of three records. -/
def tDb : List Row := [tRow1, tRow2, tRow3]

/-- First page of the limit-1 scan. -/
def tPage1 : List Row × Option (Pydate × Nat) := get_timeline tDb 7 none none none 1 true

/-- Second page, resuming from the first cursor. -/
def tPage2 : List Row × Option (Pydate × Nat) := get_timeline tDb 7 none none tPage1.2 1 true

/-- Third page, resuming from the second cursor. -/
def tPage3 : List Row × Option (Pydate × Nat) := get_timeline tDb 7 none none tPage2.2 1 true

/-- C9: the timeline read returns at most limit rows, in (effective date, id)
keyset order; because limit + 1 rows are fetched internally, the continuation
cursor is present exactly when more matching rows exist (for any positive
limit); and paging the 3-record scenario with limit 1 yields three singleton
pages, a cursor on every page but the last, and no row on two pages. -/
theorem get_timeline_spec :
    (∀ (db : List Row) (patient : Nat) (s e : Option Pydate)
        (cursor : Option (Pydate × Nat)) (limit : Nat) (desc : Bool),
      (get_timeline db patient s e cursor limit desc).1.length ≤ limit) ∧
    (∀ (db : List Row) (patient : Nat) (s e : Option Pydate)
        (cursor : Option (Pydate × Nat)) (limit : Nat) (desc : Bool),
      (get_timeline db patient s e cursor limit desc).1.Pairwise (rowLe desc)) ∧
    (∀ (db : List Row) (patient : Nat) (s e : Option Pydate)
        (cursor : Option (Pydate × Nat)) (limit : Nat) (desc : Bool), 1 ≤ limit →
      ((get_timeline db patient s e cursor limit desc).2.isSome = true ↔
        limit < (timelineFiltered db patient s e cursor desc).length)) ∧
    (tPage1.1 = [tRow3] ∧ tPage1.2 = some (⟨2024, 1, 3⟩, 3) ∧
      tPage2.1 = [tRow2] ∧ tPage2.2 = some (⟨2024, 1, 2⟩, 2) ∧
      tPage3.1 = [tRow1] ∧ tPage3.2 = none ∧
      tRow3 ≠ tRow2 ∧ tRow3 ≠ tRow1 ∧ tRow2 ≠ tRow1) := by
  refine ⟨?_, ?_, ?_, ?_⟩
  · intro db patient s e cursor limit desc
    show (timelinePage db patient s e cursor limit desc).length ≤ limit
    unfold timelinePage
    by_cases h : limit <
        ((timelineSorted db patient s e cursor desc).take (limit + 1)).length
    · rw [if_pos h, List.length_take]
      omega
    · rw [if_neg h]
      omega
  · intro db patient s e cursor limit desc
    have hsorted : (timelineSorted db patient s e cursor desc).Pairwise (rowLe desc) := by
      haveI : IsTotal Row (rowLe desc) := ⟨rowLe_total desc⟩
      haveI : IsTrans Row (rowLe desc) := ⟨rowLe_trans desc⟩
      exact List.sorted_insertionSort (rowLe desc)
        (timelineFiltered db patient s e cursor desc)
    show (timelinePage db patient s e cursor limit desc).Pairwise _
    unfold timelinePage
    by_cases h : limit <
        ((timelineSorted db patient s e cursor desc).take (limit + 1)).length
    · rw [if_pos h]
      exact List.Pairwise.sublist
        ((List.take_sublist _ _).trans (List.take_sublist _ _)) hsorted
    · rw [if_neg h]
      exact List.Pairwise.sublist (List.take_sublist _ _) hsorted
  · intro db patient s e cursor limit desc hlim
    have hS : (timelineSorted db patient s e cursor desc).length =
        (timelineFiltered db patient s e cursor desc).length :=
      (List.perm_insertionSort (rowLe desc) _).length_eq
    have htake : ((timelineSorted db patient s e cursor desc).take (limit + 1)).length =
        min (limit + 1) (timelineSorted db patient s e cursor desc).length := by
      rw [List.length_take]
    show (if limit < ((timelineSorted db patient s e cursor desc).take (limit + 1)).length
      then (timelinePage db patient s e cursor limit desc).getLast?.map keyOf
      else none).isSome = true ↔ _
    by_cases h : limit <
        ((timelineSorted db patient s e cursor desc).take (limit + 1)).length
    · rw [if_pos h]
      refine iff_of_true ?_ (by omega)
      have hpagelen : (timelinePage db patient s e cursor limit desc).length = limit := by
        unfold timelinePage
        rw [if_pos h, List.length_take, List.length_take]
        omega
      have hne : timelinePage db patient s e cursor limit desc ≠ [] := by
        intro hempty
        rw [hempty] at hpagelen
        simp at hpagelen
        omega
      rw [Option.isSome_map']
      exact List.getLast?_isSome.mpr hne
    · rw [if_neg h]
      exact iff_of_false (by simp) (by omega)
  · refine ⟨by decide, by decide, by decide, by decide, by decide, by decide,
      by decide, by decide, by decide⟩

/-- Witness for the timeline theorem parts carrying hypotheses, at the
scenario store with limit 1. -/
theorem get_timeline_spec_w :
    1 ≤ 1 ∧
      ((get_timeline tDb 7 none none none 1 true).2.isSome = true ↔
        1 < (timelineFiltered tDb 7 none none none true).length) :=
  ⟨le_refl 1, get_timeline_spec.2.2.1 tDb 7 none none none 1 true (le_refl 1)⟩

theorem digitChar10_inj :
    ∀ a < 10, ∀ b < 10, digitChar10 a = digitChar10 b → a = b := by decide

theorem pad2_inj {a b : Nat} (ha : a < 100) (hb : b < 100) (h : pad2 a = pad2 b) :
    a = b := by
  unfold pad2 at h
  rw [List.cons.injEq, List.cons.injEq] at h
  have h1 := digitChar10_inj (a / 10 % 10) (Nat.mod_lt _ (by norm_num))
    (b / 10 % 10) (Nat.mod_lt _ (by norm_num)) h.1
  have h2 := digitChar10_inj (a % 10) (Nat.mod_lt _ (by norm_num))
    (b % 10) (Nat.mod_lt _ (by norm_num)) h.2.1
  omega

theorem pad4_inj {a b : Nat} (ha : a < 10000) (hb : b < 10000) (h : pad4 a = pad4 b) :
    a = b := by
  unfold pad4 at h
  rw [List.cons.injEq, List.cons.injEq, List.cons.injEq, List.cons.injEq] at h
  have h1 := digitChar10_inj (a / 1000 % 10) (Nat.mod_lt _ (by norm_num))
    (b / 1000 % 10) (Nat.mod_lt _ (by norm_num)) h.1
  have h2 := digitChar10_inj (a / 100 % 10) (Nat.mod_lt _ (by norm_num))
    (b / 100 % 10) (Nat.mod_lt _ (by norm_num)) h.2.1
  have h3 := digitChar10_inj (a / 10 % 10) (Nat.mod_lt _ (by norm_num))
    (b / 10 % 10) (Nat.mod_lt _ (by norm_num)) h.2.2.1
  have h4 := digitChar10_inj (a % 10) (Nat.mod_lt _ (by norm_num))
    (b % 10) (Nat.mod_lt _ (by norm_num)) h.2.2.2.1
  omega

theorem iso_length (d : Pydate) : d.isoformat.length = 10 := rfl

theorem iso_inj {d1 d2 : Pydate} (h1 : d1.valid) (h2 : d2.valid)
    (h : d1.isoformat = d2.isoformat) : d1 = d2 := by
  unfold Pydate.isoformat at h
  obtain ⟨hy, hrest⟩ := List.append_inj' h (by rfl)
  rw [List.cons.injEq] at hrest
  obtain ⟨hm, hd⟩ := List.append_inj' hrest.2 (by rfl)
  rw [List.cons.injEq] at hd
  obtain ⟨hv1, hv2, hv3, hv4, hv5, hv6⟩ := h1
  obtain ⟨hw1, hw2, hw3, hw4, hw5, hw6⟩ := h2
  have ey := pad4_inj (by omega) (by omega) hy
  have em := pad2_inj (by omega) (by omega) hm
  have ed := pad2_inj (by omega) (by omega) hd.2
  cases d1
  cases d2
  simp_all

theorem fingerprint_preimage_inj (s1 s2 : Source) (r1 r2 : String) (d1 d2 : Pydate)
    (h1 : d1.valid) (h2 : d2.valid)
    (h : fingerprint_preimage s1 r1 d1 = fingerprint_preimage s2 r2 d2) :
    s1 = s2 ∧ r1 = r2 ∧ d1 = d2 := by
  have hsrc : s1 = s2 := by
    cases s1 <;> cases s2 <;> first
      | rfl
      | (exfalso
         simp only [fingerprint_preimage, Source.chars, List.cons_append,
           List.nil_append, List.cons.injEq] at h
         exact absurd h.1 (by decide))
  subst hsrc
  have hu : s1.chars ++ ':' :: (r1.data ++ ':' :: d1.isoformat) =
      s1.chars ++ ':' :: (r2.data ++ ':' :: d2.isoformat) := h
  have h' : r1.data ++ ':' :: d1.isoformat = r2.data ++ ':' :: d2.isoformat := by
    have hx := List.append_cancel_left hu
    injection hx
  have hlen : (':' :: d1.isoformat).length = (':' :: d2.isoformat).length := by
    rw [List.length_cons, List.length_cons, iso_length, iso_length]
  obtain ⟨hr, hiso⟩ := List.append_inj' h' hlen
  have hrid : r1 = r2 := by
    cases r1
    cases r2
    exact congrArg String.mk hr
  have hdate : d1 = d2 := by
    rw [List.cons.injEq] at hiso
    exact iso_inj h1 h2 hiso.2
  exact ⟨rfl, hrid, hdate⟩

theorem processChunk_length (hs c : List Nat) : (processChunk hs c).length = 8 := rfl

theorem foldl_processChunk_length :
    ∀ (cs : List (List Nat)) (hs : List Nat), hs.length = 8 →
      (cs.foldl processChunk hs).length = 8 := by
  intro cs
  induction cs with
  | nil => intro hs h; exact h
  | cons c cs ih =>
      intro hs _
      rw [List.foldl_cons]
      exact ih _ (processChunk_length hs c)

theorem sha256Words_length (m : List Nat) : (sha256Words m).length = 8 :=
  foldl_processChunk_length _ sha256H0 rfl

theorem wordNibbles_length (w : Nat) : (wordNibbles w).length = 8 := by
  unfold wordNibbles
  rw [List.length_map, List.length_range]

theorem flatMap_wordNibbles_length :
    ∀ ws : List Nat, (ws.flatMap wordNibbles).length = 8 * ws.length := by
  intro ws
  induction ws with
  | nil => rfl
  | cons w ws ih =>
      rw [List.flatMap_cons, List.length_append, wordNibbles_length, ih,
        List.length_cons]
      ring

theorem digestNibbles_length (m : List Nat) : (digestNibbles m).length = 64 := by
  unfold digestNibbles
  rw [flatMap_wordNibbles_length, sha256Words_length]

theorem sha256hexList_length (m : List Nat) : (sha256hexList m).length = 64 := by
  unfold sha256hexList
  rw [List.length_map, digestNibbles_length]

/-- Lowercase hexadecimal alphabet. -/
def hexDigits : List Char := "0123456789abcdef".data

theorem hexChar_mem : ∀ n < 16, hexChar n ∈ hexDigits := by decide

theorem digestNibbles_lt (m : List Nat) : ∀ x ∈ digestNibbles m, x < 16 := by
  intro x hx
  unfold digestNibbles at hx
  obtain ⟨w, _, hw⟩ := List.mem_flatMap.mp hx
  obtain ⟨j, _, hj⟩ := List.mem_map.mp hw
  rw [← hj]
  exact Nat.mod_lt _ (by norm_num)

/-- The digest of a message as a function from nibble position to value; the
codomain is finite, which is what dooms injectivity of any hash. -/
def digestFun (m : List Nat) (i : Fin 64) : Fin 16 :=
  ⟨(digestNibbles m).getD i 0 % 16, Nat.mod_lt _ (by norm_num)⟩

theorem hexList_eq_of_digestFun_eq {m1 m2 : List Nat}
    (h : digestFun m1 = digestFun m2) : sha256hexList m1 = sha256hexList m2 := by
  have hlists : digestNibbles m1 = digestNibbles m2 := by
    apply List.ext_getElem (by rw [digestNibbles_length, digestNibbles_length])
    intro n hn1 hn2
    have hn : n < 64 := by
      rw [digestNibbles_length] at hn1
      exact hn1
    have hcong := congrFun h ⟨n, hn⟩
    unfold digestFun at hcong
    rw [Fin.mk.injEq] at hcong
    have e1 : (digestNibbles m1).getD n 0 = (digestNibbles m1)[n] :=
      List.getD_eq_getElem _ _ hn1
    have e2 : (digestNibbles m2).getD n 0 = (digestNibbles m2)[n] :=
      List.getD_eq_getElem _ _ hn2
    have l1 : (digestNibbles m1)[n] < 16 :=
      digestNibbles_lt m1 _ (List.getElem_mem hn1)
    have l2 : (digestNibbles m2)[n] < 16 :=
      digestNibbles_lt m2 _ (List.getElem_mem hn2)
    rw [e1, e2] at hcong
    rw [Nat.mod_eq_of_lt l1, Nat.mod_eq_of_lt l2] at hcong
    exact hcong
  unfold sha256hexList
  rw [hlists]

/-- Source-record id consisting of n copies of the letter a. -/
def mkSrid (n : Nat) : String := String.mk (List.replicate n 'a')

theorem mkSrid_inj {i j : Nat} (h : mkSrid i = mkSrid j) : i = j := by
  have hd : List.replicate i 'a' = List.replicate j 'a' := congrArg String.data h
  have := congrArg List.length hd
  rwa [List.length_replicate, List.length_replicate] at this

/-- C6 counterexample: the 64-hex fingerprint cannot be injective over its
unbounded input space; by the pigeonhole principle two distinct
(source, source_record_id, effective_date) triples share a fingerprint,
because the digest takes only finitely many values while source record ids
are unbounded. -/
theorem compute_fingerprint_not_injective :
    ¬ ∀ (s1 : Source) (r1 : String) (d1 : Pydate) (s2 : Source) (r2 : String)
        (d2 : Pydate), (s1, r1, d1) ≠ (s2, r2, d2) →
        compute_fingerprint s1 r1 d1 ≠ compute_fingerprint s2 r2 d2 := by
  intro hinj
  obtain ⟨i, j, hij, hfe⟩ := Finite.exists_ne_map_eq_of_infinite
    fun n : ℕ => digestFun (preimageBytes Source.oura (mkSrid n) ⟨2024, 1, 1⟩)
  have hfp : compute_fingerprint Source.oura (mkSrid i) ⟨2024, 1, 1⟩ =
      compute_fingerprint Source.oura (mkSrid j) ⟨2024, 1, 1⟩ :=
    congrArg String.mk (hexList_eq_of_digestFun_eq hfe)
  refine hinj Source.oura (mkSrid i) ⟨2024, 1, 1⟩ Source.oura (mkSrid j) ⟨2024, 1, 1⟩
    ?_ hfp
  intro hpair
  apply hij
  rw [Prod.mk.injEq, Prod.mk.injEq] at hpair
  exact mkSrid_inj hpair.2.1

/-- C6 amended: compute_fingerprint is a pure deterministic function of the
(source, source_record_id, effective_date) triple producing a 64-character
lowercase-hex string, and its preimage encoding
source:source_record_id:isoformat is injective over the three inputs for
calendar-valid dates, so two triples can collide only through a SHA-256
collision of distinct preimages (such collisions must exist by pigeonhole but
none is concretely known). -/
theorem compute_fingerprint_spec (s1 s2 : Source) (r1 r2 : String)
    (d1 d2 : Pydate) (h1 : d1.valid) (h2 : d2.valid) :
    (compute_fingerprint s1 r1 d1).length = 64 ∧
    (∀ ch ∈ (compute_fingerprint s1 r1 d1).data, ch ∈ hexDigits) ∧
    ((s1, r1, d1) = (s2, r2, d2) →
      compute_fingerprint s1 r1 d1 = compute_fingerprint s2 r2 d2) ∧
    ((s1, r1, d1) ≠ (s2, r2, d2) →
      fingerprint_preimage s1 r1 d1 ≠ fingerprint_preimage s2 r2 d2) ∧
    compute_fingerprint s1 r1 d1 = sha256hex (preimageBytes s1 r1 d1) := by
  refine ⟨?_, ?_, ?_, ?_, rfl⟩
  · show (String.mk (sha256hexList (preimageBytes s1 r1 d1))).length = 64
    show (sha256hexList (preimageBytes s1 r1 d1)).length = 64
    exact sha256hexList_length _
  · intro ch hch
    have hch2 : ch ∈ sha256hexList (preimageBytes s1 r1 d1) := hch
    obtain ⟨n, hn, hchn⟩ := List.mem_map.mp hch2
    rw [← hchn]
    exact hexChar_mem n (digestNibbles_lt _ n hn)
  · intro hpair
    rw [Prod.mk.injEq, Prod.mk.injEq] at hpair
    rw [hpair.1, hpair.2.1, hpair.2.2]
  · intro hpair heq
    obtain ⟨e1, e2, e3⟩ := fingerprint_preimage_inj s1 s2 r1 r2 d1 d2 h1 h2 heq
    apply hpair
    rw [e1, e2, e3]

/-- Witness for the fingerprint theorem at two concrete valid triples. -/
theorem compute_fingerprint_spec_w :
    ((⟨2024, 1, 2⟩ : Pydate).valid ∧ (⟨2024, 3, 4⟩ : Pydate).valid) ∧
    ((Source.oura, "id-1", (⟨2024, 1, 2⟩ : Pydate)) ≠
        (Source.withings, "id-2", (⟨2024, 3, 4⟩ : Pydate)) →
      fingerprint_preimage Source.oura "id-1" ⟨2024, 1, 2⟩ ≠
        fingerprint_preimage Source.withings "id-2" ⟨2024, 3, 4⟩) :=
  ⟨⟨by decide, by decide⟩,
    (compute_fingerprint_spec Source.oura Source.withings "id-1" "id-2"
      ⟨2024, 1, 2⟩ ⟨2024, 3, 4⟩ (by decide) (by decide)).2.2.2.1⟩
